import Mathlib

/-!
# Verification of the MathChain secret-store coordination pallet

This development gives a shallow embedding of the threshold
response-aggregation engine of `frame/secret-store/module/src/service.rs`,
the four task coordinators built on it, and the key-server-set migration
coordinator of `key_server_set.rs`, together with theorems about their
behaviour.

Machine integers (`u8`, `u128`) are modelled as `Nat` with explicit
wrap-around (`% 256`, bit operations) exactly where the Rust code performs
wrapping arithmetic.
-/

namespace SecretStore

/-! ## 8-bit wrapping arithmetic

The Rust module stores counts and thresholds as `u8`; release-mode Rust
arithmetic wraps, so addition and subtraction are modelled modulo `2^8`.
Arguments are expected to be `< 256`; results always are. -/

/-- Wrapping 8-bit addition: `a + b` on `u8`. -/
def add8 (a b : Nat) : Nat := (a + b) % 256

/-- Wrapping 8-bit subtraction: `a - b` on `u8` values (`a, b < 256`). -/
def sub8 (a b : Nat) : Nat := (a + 256 - b) % 256

/-! ## The key-servers mask (`primitives/src/key_servers_mask.rs`)

A 256-bit set stored as two `u128` words. Shifts in the source are
`1u128 << i` with `i < 128`, which never overflows, so the words are
plain `Nat`s built from `1 <<< i`. -/

structure KeyServersMask where
  low : Nat
  high : Nat
deriving Repr, DecidableEq

/-- The `Default` instance of the mask: both words zero. -/
def KeyServersMask.default : KeyServersMask := ⟨0, 0⟩

/-- Source `KeyServersMask::from_index`: the branch on `index.overflowing_sub(128)`
selects the low word for `index < 128` and the high word otherwise. -/
def KeyServersMask.from_index (index : Nat) : KeyServersMask :=
  if index < 128 then ⟨1 <<< index, 0⟩ else ⟨0, 1 <<< (index - 128)⟩

/-- Source `KeyServersMask::is_set`. -/
def KeyServersMask.is_set (mask : KeyServersMask) (index : Nat) : Bool :=
  if index < 128 then mask.low &&& (1 <<< index) ≠ 0
  else mask.high &&& (1 <<< (index - 128)) ≠ 0

/-- Source `KeyServersMask::union`: word-wise bitwise or. -/
def KeyServersMask.union (a b : KeyServersMask) : KeyServersMask :=
  ⟨a.low ||| b.low, a.high ||| b.high⟩

/-! ## The threshold vote engine (`module/src/service.rs`)

`Responses` is the per-request vote accumulator; the per-(request, value)
support counters (`ResponsesSupport`, a storage double map) are modelled,
for a fixed request, as a function from reported values to their `u8`
support count. Block numbers are modelled as `Nat`. -/

structure Responses where
  key_servers_change_block : Nat
  responded_key_servers_mask : KeyServersMask
  responded_key_servers_count : Nat
  max_response_support : Nat
deriving Repr, DecidableEq

/-- How a response is supported by the current key server set. -/
inductive ResponseSupport where
  | Unconfirmed
  | Confirmed
  | Impossible
deriving Repr, DecidableEq

/-- Source `SecretStoreService::new_responses`, reading the current set-change block. -/
def new_responses (current_set_change_block : Nat) : Responses :=
  { key_servers_change_block := current_set_change_block
    responded_key_servers_mask := KeyServersMask.default
    responded_key_servers_count := 0
    max_response_support := 0 }

/-- Source `SecretStoreService::insert_response`.

Inputs: the current key-server population `key_servers_count` (a `u8`,
as returned by `key_servers_count()`), the current set-change block,
the reporting slot `key_server_index`, the required `threshold`, the
accumulator, the support table for this request and the reported value.
Returns the outcome together with the updated accumulator and table. -/
def insert_response {Response : Type} [DecidableEq Response]
    (key_servers_count : Nat) (key_servers_change_block : Nat)
    (key_server_index : Nat) (threshold : Nat)
    (responses : Responses) (support_table : Response → Nat) (response : Response) :
    ResponseSupport × Responses × (Response → Nat) :=
  -- check that servers set is still the same (and all previous responses are valid)
  let step :
      Responses × (Response → Nat) :=
    if responses.responded_key_servers_count = 0 then
      ({ responses with key_servers_change_block := key_servers_change_block },
       support_table)
    else if responses.key_servers_change_block ≠ key_servers_change_block then
      ({ key_servers_change_block := key_servers_change_block
         responded_key_servers_mask := KeyServersMask.default
         responded_key_servers_count := 0
         max_response_support := 0 },
       fun _ => 0)
    else (responses, support_table)
  let responses := step.1
  let support_table := step.2
  -- check if key server has already responded
  let key_server_mask := KeyServersMask.from_index key_server_index
  let updated_mask := responses.responded_key_servers_mask.union key_server_mask
  if updated_mask = responses.responded_key_servers_mask then
    (ResponseSupport.Unconfirmed, responses, support_table)
  else
    -- insert response
    let response_support := add8 (support_table response) 1
    let support_table := fun r => if r = response then response_support else support_table r
    let responses :=
      { responses with
          responded_key_servers_mask := updated_mask
          responded_key_servers_count := add8 responses.responded_key_servers_count 1 }
    let upd : Responses × Bool :=
      if responses.max_response_support ≤ response_support then
        ({ responses with max_response_support := response_support },
         decide (threshold ≤ sub8 response_support 1))
      else (responses, false)
    let responses := upd.1
    if upd.2 then
      (ResponseSupport.Confirmed, responses, support_table)
    else
      -- check if max confirmation CAN receive enough support
      let key_servers_left := sub8 key_servers_count responses.responded_key_servers_count
      if sub8 (add8 responses.max_response_support key_servers_left) 1 < threshold then
        (ResponseSupport.Impossible, responses, support_table)
      else
        (ResponseSupport.Unconfirmed, responses, support_table)

/-- Source `SecretStoreService::is_response_required`. The current key-server set is
abstracted as a partial map from server identity to slot index
(`CurrentKeyServers::get(id).map(|ks| ks.index)`). -/
def service_is_response_required (current_key_servers : Nat → Option Nat)
    (key_servers_change_block : Nat) (key_server : Nat) (responses : Responses) : Bool :=
  match current_key_servers key_server with
  | none => false
  | some key_server_index =>
      decide (key_servers_change_block ≠ responses.key_servers_change_block)
        || !(responses.responded_key_servers_mask.is_set key_server_index)

/-! ## Server-key generation threshold validation
(`server_key_generation.rs`, `generate`) -/

/-- The threshold validation of `ServerKeyGenerationService::generate`:
`ensure!(threshold + 1 <= key_servers_count)`, with `threshold + 1`
computed in `u8` wrapping arithmetic. -/
def generate_threshold_check (threshold key_servers_count : Nat) : Bool :=
  decide (add8 threshold 1 ≤ key_servers_count)

/-! ## Server-key retrieval (`server_key_retrieval.rs`)

Two-stage agreement: a majority vote on the claimed threshold and a
value vote on the server key public. `H512` values are modelled as `Nat`.
The two support tables (`ServerKeyRetrievalThresholdResponses` and
`ServerKeyRetrievalResponses`) are, for a fixed request, functions from
the reported threshold / key to its count. -/

structure ServerKeyRetrievalRequest where
  threshold_responses : Responses
  responses : Responses
  server_key_with_max_threshold : Nat
deriving Repr, DecidableEq

/-- Source `INVALID_THRESHOLD`: the sentinel threshold `0xFF`. -/
def INVALID_THRESHOLD : Nat := 0xFF

/-- Result of `ServerKeyRetrievalService::insert_response`: the updated
request, the outcome, the key to publish, and the two updated tables. -/
structure SkrInsertResult where
  request : ServerKeyRetrievalRequest
  support : ResponseSupport
  final_server_key_public : Nat
  threshold_table : Nat → Nat
  key_table : Nat → Nat

/-- Source `ServerKeyRetrievalService::insert_response`. -/
def skr_insert_response (key_servers_count key_servers_change_block key_server_index : Nat)
    (request : ServerKeyRetrievalRequest)
    (threshold_table : Nat → Nat) (key_table : Nat → Nat)
    (server_key_public : Nat) (threshold : Nat) : SkrInsertResult :=
  -- insert threshold response
  let tr := insert_response key_servers_count key_servers_change_block key_server_index
    (key_servers_count / 2) request.threshold_responses threshold_table threshold
  let threshold_support := tr.1
  let request := { request with threshold_responses := tr.2.1 }
  let threshold_table := tr.2.2
  if threshold_support = ResponseSupport.Impossible then
    ⟨request, threshold_support, server_key_public, threshold_table, key_table⟩
  else
    -- insert server key public response
    let kr := insert_response key_servers_count key_servers_change_block key_server_index
      threshold request.responses key_table server_key_public
    let key_support := kr.1
    let request := { request with responses := kr.2.1 }
    let key_table := kr.2.2
    if threshold_support = ResponseSupport.Unconfirmed then
      -- remember public to possibly return it in the future
      let request :=
        if threshold ≠ INVALID_THRESHOLD ∧
            request.responses.max_response_support = key_table server_key_public then
          { request with server_key_with_max_threshold := server_key_public }
        else request
      ⟨request, ResponseSupport.Unconfirmed, server_key_public, threshold_table, key_table⟩
    else if key_support = ResponseSupport.Unconfirmed ∧
        add8 threshold 1 ≤ request.responses.max_response_support then
      -- threshold is confirmed and some other public already has enough support
      ⟨request, ResponseSupport.Confirmed, request.server_key_with_max_threshold,
        threshold_table, key_table⟩
    else
      ⟨request, key_support, server_key_public, threshold_table, key_table⟩

/-- Tie-break scenario, first report: with five servers, server 0 reports
`(P1 = 1, threshold 1)` on a fresh retrieval request. -/
def skrTieStep1 : SkrInsertResult :=
  skr_insert_response 5 0 0
    ⟨new_responses 0, new_responses 0, 0⟩ (fun _ => 0) (fun _ => 0) 1 1

/-- Tie-break scenario, second report: server 1 reports `(P2 = 2, threshold 1)`. -/
def skrTieStep2 : SkrInsertResult :=
  skr_insert_response 5 0 1
    skrTieStep1.request skrTieStep1.threshold_table skrTieStep1.key_table 2 1

/-! ## Document-key shadow retrieval (`document_key_shadow_retrieval.rs`) -/

structure DocumentKeyShadowRetrievalRequest where
  requester : Nat
  requester_public : Nat
  common_responses : Responses
  threshold : Option Nat
  personal_retrieval_errors_mask : KeyServersMask
  personal_retrieval_errors_count : Nat
deriving Repr, DecidableEq

/-- Source `DocumentKeyShadowRetrievalService::is_response_required` for an
active request: `request.threshold.is_some() ||` the generic service-level
check on the common-phase accumulator. -/
def shadow_is_response_required (current_key_servers : Nat → Option Nat)
    (key_servers_change_block : Nat) (key_server : Nat)
    (request : Option DocumentKeyShadowRetrievalRequest) : Bool :=
  match request with
  | none => false
  | some req =>
      req.threshold.isSome
        || service_is_response_required current_key_servers key_servers_change_block
            key_server req.common_responses

/-- Formalization of the claim's description of the response-required
query (used only to compare against the code's behaviour): a response is
outstanding iff (a) the common phase is unresolved and the server has not
voted in it, or (b) a membership-epoch change has occurred since the
server's own (recorded) contribution. -/
def claimed_shadow_response_required (current_key_servers : Nat → Option Nat)
    (key_servers_change_block : Nat) (key_server : Nat)
    (request : Option DocumentKeyShadowRetrievalRequest) : Bool :=
  match request with
  | none => false
  | some req =>
      match current_key_servers key_server with
      | none => false
      | some idx =>
          (req.threshold.isNone
            && !(req.common_responses.responded_key_servers_mask.is_set idx))
          || (req.common_responses.responded_key_servers_mask.is_set idx
            && decide (key_servers_change_block
                ≠ req.common_responses.key_servers_change_block))

/-! ## Key-server set and migration coordinator
(`key_server_set.rs`, `key_server_set_storage.rs`)

Key servers are modelled as records of slot index, identity and network
address (all `Nat`). The three sets are id-keyed lists; the migration
confirmations map is the list of confirmed ids. -/

structure KeyServer where
  index : Nat
  id : Nat
  address : Nat
deriving Repr, DecidableEq

structure KeyServerSetState where
  current : List KeyServer
  new_set : List KeyServer
  migration : List KeyServer
  migration_id : Option (Nat × Nat)
  migration_confirmations : List Nat
  current_set_change_block : Nat
deriving Repr, DecidableEq

/-- Source `KeyServerSetWithMigration::confirm_migration`. The caller's resolved
key-server id is `caller_id`; `current_block_number` is the present block.
`none` models the `ensure!` failures. -/
def confirm_migration (st : KeyServerSetState) (caller_id : Nat) (migration_id : Nat)
    (current_block_number : Nat) : Option KeyServerSetState :=
  match st.migration_id with
  | none => none
  | some (mid, _master) =>
    if mid ≠ migration_id then none
    else if ¬ st.migration.any (fun ks => ks.id = caller_id) then none
    else if st.migration_confirmations.contains caller_id then none
    else
      -- remember confirmation
      let confirmations := st.migration_confirmations ++ [caller_id]
      -- check if every server from migration set has confirmed migration
      if st.migration.all (fun ks => confirmations.contains ks.id) then
        -- forget everything about current migration
        some { st with
          migration_confirmations :=
            confirmations.filter (fun c => ¬ st.migration.any (fun ks => ks.id = c))
          current := st.migration
          migration := []
          current_set_change_block := current_block_number
          migration_id := none }
      else
        some { st with migration_confirmations := confirmations }

/-! ## Fatal error reports
(`server_key_generation.rs` `on_generation_error`,
`document_key_store.rs` `on_store_error`)

The module-level storage touched by these handlers: the request map, the
pending-keys list, the per-request response counters and the event
stream. `delete_request` removes the key from the pending list via
`position` + `Vec::swap_remove`. -/

/-- Source `iter().position(...)` for the pending-keys list. -/
def list_position (x : Nat) : List Nat → Option Nat
  | [] => none
  | y :: l => if y = x then some 0 else (list_position x l).map (· + 1)

/-- Source `Vec::swap_remove(i)`: overwrite index `i` with the last element and
pop the last element. -/
def swap_remove (l : List Nat) (i : Nat) : List Nat :=
  match l.getLast? with
  | none => l
  | some last => (l.set i last).dropLast

/-- The pending-keys part of `delete_request`:
`position` the key, then `swap_remove` it (no-op when absent). -/
def remove_request_key (l : List Nat) (x : Nat) : List Nat :=
  match list_position x l with
  | none => l
  | some i => swap_remove l i

/-- Outward events relevant to the fatal-error handlers. -/
inductive Event where
  | ServerKeyGenerationError (id : Nat)
  | DocumentKeyStoreError (id : Nat)
deriving Repr, DecidableEq

structure ServerKeyGenerationRequest where
  author : Nat
  threshold : Nat
  responses : Responses
deriving Repr, DecidableEq

structure DocumentKeyStoreRequest where
  author : Nat
  common_point : Nat
  encrypted_point : Nat
  responses : Responses
deriving Repr, DecidableEq

/-- Module storage for server-key generation: `ServerKeyGenerationRequests`,
`ServerKeyGenerationRequestsKeys`, `ServerKeyGenerationResponses`
(double map `(ServerKeyId, H512) → u8`) and the event stream. -/
structure GenerationModuleState where
  requests : Nat → Option ServerKeyGenerationRequest
  requests_keys : List Nat
  responses_table : Nat → Nat → Nat
  events : List Event

/-- Source `server_key_generation.rs` `delete_request`: remove the responses
prefix, the request entry and the pending key. -/
def generation_delete_request (id : Nat) (st : GenerationModuleState) :
    GenerationModuleState :=
  { requests := fun k => if k = id then none else st.requests k
    requests_keys := remove_request_key st.requests_keys id
    responses_table := fun k v => if k = id then 0 else st.responses_table k v
    events := st.events }

/-- Source `ServerKeyGenerationService::on_generation_error`. The caller's
key-server index lookup is abstracted as `caller_index` (`none` models
"the caller is not a key server", which fails the call). -/
def on_generation_error (caller_index : Option Nat) (id : Nat)
    (st : GenerationModuleState) : Option GenerationModuleState :=
  match caller_index with
  | none => none
  | some _ =>
    match st.requests id with
    | none => some st
    | some _ =>
      some { generation_delete_request id st with
        events := st.events ++ [Event.ServerKeyGenerationError id] }

/-- Module storage for document-key store. -/
structure StoreModuleState where
  requests : Nat → Option DocumentKeyStoreRequest
  requests_keys : List Nat
  responses_table : Nat → Nat
  events : List Event

/-- Source `document_key_store.rs` `delete_request`. The responses double map is
keyed by `(ServerKeyId, ())`, i.e. one counter per request. -/
def store_delete_request (id : Nat) (st : StoreModuleState) : StoreModuleState :=
  { requests := fun k => if k = id then none else st.requests k
    requests_keys := remove_request_key st.requests_keys id
    responses_table := fun k => if k = id then 0 else st.responses_table k
    events := st.events }

/-- Source `DocumentKeyStoreService::on_store_error`. -/
def on_store_error (caller_index : Option Nat) (id : Nat)
    (st : StoreModuleState) : Option StoreModuleState :=
  match caller_index with
  | none => none
  | some _ =>
    match st.requests id with
    | none => some st
    | some _ =>
      some { store_delete_request id st with
        events := st.events ++ [Event.DocumentKeyStoreError id] }

/-- The environment a single `on_stored` call runs in: the slot indices of
the current key servers and the current set-change block. -/
structure StoreEnv where
  servers : Finset Nat
  change_block : Nat
deriving DecidableEq

/-- The vote-engine part of `DocumentKeyStoreService::on_stored`: insert
the unit acknowledgement with `threshold = key_servers_count - 1` (`u8`
subtraction). `key_servers_count()` is `CurrentKeyServers::iter().count()
as u8`, i.e. the set size cast to `u8`, modelled by `% 256` (the cast
wraps to `0` when the current set holds all 256 slots).
State: the accumulator and the support count of the unit value. -/
def docStoreCall (e : StoreEnv) (i : Nat) (st : Responses × Nat) :
    ResponseSupport × Responses × Nat :=
  let res := insert_response (e.servers.card % 256) e.change_block i
    (sub8 (e.servers.card % 256) 1) st.1 (fun _ : Unit => st.2) ()
  (res.1, res.2.1, res.2.2 ())

/-- A current key-server set occupying all 256 slots (which
`key_server_set_storage::append` permits: it fails only at the 257th
server), under set-change block 0. For this population
`key_servers_count()` wraps to `0`. -/
def docStore256Env : StoreEnv := ⟨Finset.range 256, 0⟩

/-- The document-key-store request state after slots `0, …, 253` of the
256-slot set have acknowledged the store, in that order, starting from a
fresh request: the mask `⟨2^128 − 1, 2^126 − 1⟩` has exactly slots
`0 … 253` set, and count, max support and the unit support are all 254. -/
def docStore256State254 : Responses × Nat :=
  (Responses.mk 0 ⟨2 ^ 128 - 1, 2 ^ 126 - 1⟩ 254 254, 254)

/-- The same request state one acknowledgement later (slots `0 … 254`
voted). -/
def docStore256State255 : Responses × Nat :=
  (Responses.mk 0 ⟨2 ^ 128 - 1, 2 ^ 127 - 1⟩ 255 255, 255)

/-- States of a document-key-store request reachable by sequences of
`on_stored` calls under the assumptions of the amended claim C8: the
request is created with `new_responses` (under an arbitrary creation
block) and an empty support counter; each call is made by a current key
server; the population never exceeds 255 (so the `u8` cast of the set
size and the vote counters cannot wrap); and the environment of a call
either equals the previous one or has a strictly larger set-change block
(every membership change is accompanied by a fresh set-change block).
The program itself permits a 256-member current set and same-block
membership changes (two migrations finalizing in one block); those
excluded behaviours falsify the unrestricted claim, see
`on_stored_impossible_counterexample`. -/
inductive DocStoreReach : StoreEnv → Responses × Nat → Prop where
  | init (e : StoreEnv) (b0 : Nat) : DocStoreReach e (new_responses b0, 0)
  | step (e e' : StoreEnv) (i : Nat) (st : Responses × Nat) :
      DocStoreReach e st →
      (e' = e ∨ e.change_block < e'.change_block) →
      (∀ j ∈ e'.servers, j < 256) →
      e'.servers.card ≤ 255 →
      i ∈ e'.servers →
      DocStoreReach e' (docStoreCall e' i st).2

/-- Invariant of reachable `on_stored` states: the responded count, the
max support and the unit support counter agree; an untouched accumulator
has an empty mask; the stored epoch never runs ahead of the current one;
and under a matching epoch the mask marks exactly the current servers that
have voted. -/
def StoreInv (e : StoreEnv) (r : Responses) (t : Nat) : Prop :=
  r.responded_key_servers_count = t ∧
  r.max_response_support = t ∧
  (t = 0 → r.responded_key_servers_mask = KeyServersMask.default) ∧
  (t ≠ 0 → r.key_servers_change_block ≤ e.change_block) ∧
  (r.key_servers_change_block = e.change_block →
    (∀ j, r.responded_key_servers_mask.is_set j = true → j ∈ e.servers) ∧
    t = (e.servers.filter
      (fun j => r.responded_key_servers_mask.is_set j = true)).card)

/-! ## Theorems -/

theorem add8_lt (a b : Nat) : add8 a b < 256 := Nat.mod_lt _ (by omega)

theorem sub8_lt (a b : Nat) : sub8 a b < 256 := Nat.mod_lt _ (by omega)

/-- When no wrap occurs, `add8` is plain addition. -/
theorem add8_eq (a b : Nat) (h : a + b < 256) : add8 a b = a + b := by
  simp [add8, Nat.mod_eq_of_lt h]

/-- When no borrow occurs, `sub8` is plain (truncated) subtraction. -/
theorem sub8_eq (a b : Nat) (ha : a < 256) (hba : b ≤ a) : sub8 a b = a - b := by
  have : a + 256 - b = (a - b) + 256 := by omega
  simp [sub8, this, Nat.add_mod_right, Nat.mod_eq_of_lt (by omega : a - b < 256)]

/-! Bit-level facts used to relate `union` with `is_set`. -/

theorem Nat.and_two_pow_eq_ite (x j : Nat) :
    x &&& 2 ^ j = if x.testBit j then 2 ^ j else 0 := by
  apply Nat.eq_of_testBit_eq
  intro k
  rcases eq_or_ne k j with rfl | hkj
  · cases h : x.testBit k <;>
      simp [Nat.testBit_and, h, Nat.testBit_two_pow_self]
  · cases h : x.testBit j <;>
      simp [Nat.testBit_and, h, Nat.testBit_two_pow_of_ne (Ne.symm hkj)]

theorem Nat.and_two_pow_ne_zero_iff (x j : Nat) :
    (x &&& 2 ^ j ≠ 0) ↔ x.testBit j = true := by
  rw [Nat.and_two_pow_eq_ite]
  cases h : x.testBit j <;> simp [h, (Nat.two_pow_pos j).ne']

theorem Nat.lor_pow_and_pow_ne (x i j : Nat) (hij : i ≠ j) :
    (x ||| 2 ^ i) &&& 2 ^ j = x &&& 2 ^ j := by
  rw [Nat.and_two_pow_eq_ite, Nat.and_two_pow_eq_ite]
  simp [Nat.testBit_or, Nat.testBit_two_pow_of_ne hij]

theorem Nat.lor_zero_nat (x : Nat) : x ||| 0 = x := by
  apply Nat.eq_of_testBit_eq
  intro k
  simp [Nat.testBit_or]

theorem Nat.lor_two_pow_eq_self_iff (x j : Nat) :
    (x ||| 2 ^ j = x) ↔ x.testBit j = true := by
  constructor
  · intro h
    have := congrArg (fun y => y.testBit j) h
    simpa [Nat.testBit_or, Nat.testBit_two_pow_self] using this
  · intro h
    apply Nat.eq_of_testBit_eq
    intro k
    rcases eq_or_ne k j with rfl | hkj
    · simp [Nat.testBit_or, h, Nat.testBit_two_pow_self]
    · simp [Nat.testBit_or, Nat.testBit_two_pow_of_ne (Ne.symm hkj)]

/-- Adding a slot to the mask leaves it unchanged iff the slot is set. -/
theorem KeyServersMask.union_from_index_eq_iff (m : KeyServersMask) (i : Nat) :
    (m.union (KeyServersMask.from_index i) = m) ↔ m.is_set i = true := by
  unfold KeyServersMask.union KeyServersMask.from_index KeyServersMask.is_set
  by_cases h : i < 128 <;>
    simp only [h, if_true, if_false, reduceIte, Nat.shiftLeft_eq, one_mul] <;>
    constructor
  · intro he
    have hlow : m.low ||| 2 ^ i = m.low := congrArg KeyServersMask.low he
    simpa [decide_eq_true_eq, Nat.and_two_pow_ne_zero_iff] using
      (Nat.lor_two_pow_eq_self_iff m.low i).mp hlow
  · intro hs
    have : m.low.testBit i = true := by
      have := of_decide_eq_true hs
      exact (Nat.and_two_pow_ne_zero_iff m.low i).mp this
    have hlow : m.low ||| 2 ^ i = m.low := (Nat.lor_two_pow_eq_self_iff m.low i).mpr this
    cases m
    simp_all
  · intro he
    have hhigh : m.high ||| 2 ^ (i - 128) = m.high := congrArg KeyServersMask.high he
    simpa [decide_eq_true_eq, Nat.and_two_pow_ne_zero_iff] using
      (Nat.lor_two_pow_eq_self_iff m.high (i - 128)).mp hhigh
  · intro hs
    have : m.high.testBit (i - 128) = true := by
      have := of_decide_eq_true hs
      exact (Nat.and_two_pow_ne_zero_iff m.high (i - 128)).mp this
    have hhigh : m.high ||| 2 ^ (i - 128) = m.high :=
      (Nat.lor_two_pow_eq_self_iff m.high (i - 128)).mpr this
    cases m
    simp_all

/-- The default mask has no slot set. -/
theorem KeyServersMask.default_is_set (i : Nat) :
    KeyServersMask.default.is_set i = false := by
  unfold KeyServersMask.is_set KeyServersMask.default
  by_cases h : i < 128 <;> simp [h]

/-- A slot added to a mask is set in the result. -/
theorem KeyServersMask.is_set_union_from_index (m : KeyServersMask) (i : Nat) :
    (m.union (KeyServersMask.from_index i)).is_set i = true := by
  unfold KeyServersMask.union KeyServersMask.from_index KeyServersMask.is_set
  by_cases h : i < 128 <;>
    simp only [h, if_true, if_false, reduceIte, Nat.shiftLeft_eq, one_mul] <;>
    · rw [decide_eq_true_eq, Nat.and_two_pow_ne_zero_iff]
      simp [Nat.testBit_or, Nat.testBit_two_pow_self]

/-- Slots other than the added one are unaffected by the union
(for slot indices below 256, as enforced by the `u8` index type). -/
theorem KeyServersMask.is_set_union_from_index_ne (m : KeyServersMask) (i j : Nat)
    (hi : i < 256) (hij : i ≠ j) :
    (m.union (KeyServersMask.from_index i)).is_set j = m.is_set j := by
  unfold KeyServersMask.union KeyServersMask.from_index KeyServersMask.is_set
  by_cases h1 : i < 128 <;> by_cases h2 : j < 128 <;>
    simp only [h1, h2, if_true, if_false, reduceIte, Nat.shiftLeft_eq, one_mul]
  · rw [Nat.lor_pow_and_pow_ne m.low i j hij]
  · rw [Nat.lor_zero_nat]
  · rw [Nat.lor_zero_nat]
  · rw [Nat.lor_pow_and_pow_ne m.high (i - 128) (j - 128) (by omega)]

/-! ### Path characterizations of `insert_response`

These helper lemmas isolate the three control paths of the engine:
a vote from a slot that has already responded (under a matching epoch),
a call under a stale epoch (full reset), and the recording of a fresh
vote. All later theorems go through them. -/

/-- A call under a stale epoch behaves exactly like a call on a freshly
created accumulator with an empty support table. -/
theorem insert_response_stale_epoch {Response : Type} [DecidableEq Response]
    (N blk i thr : Nat) (r : Responses) (t : Response → Nat) (v : Response)
    (hcnt : r.responded_key_servers_count ≠ 0)
    (hblk : r.key_servers_change_block ≠ blk) :
    insert_response N blk i thr r t v =
      insert_response N blk i thr (new_responses blk) (fun _ => 0) v := by
  unfold insert_response
  simp only [hcnt, hblk, new_responses, if_false, if_true, ne_eq,
    not_false_iff, reduceIte]

/-- Under a matching epoch (or an untouched accumulator), a vote by a slot
that has already responded returns `Unconfirmed` and only (re-)writes the
stored epoch; mask, count, max-support and the support table are unchanged. -/
theorem insert_response_already_responded {Response : Type} [DecidableEq Response]
    (N blk i thr : Nat) (r : Responses) (t : Response → Nat) (v : Response)
    (hepoch : r.key_servers_change_block = blk ∨ r.responded_key_servers_count = 0)
    (hset : r.responded_key_servers_mask.is_set i = true) :
    insert_response N blk i thr r t v =
      (ResponseSupport.Unconfirmed, { r with key_servers_change_block := blk }, t) := by
  have hmask := (KeyServersMask.union_from_index_eq_iff r.responded_key_servers_mask i).mpr hset
  unfold insert_response
  rcases hepoch with hblk | hcnt
  · by_cases hc : r.responded_key_servers_count = 0
    · simp only [hc, if_true, reduceIte, hmask, hblk]
    · simp only [hc, hblk, if_false, ne_eq, not_true_eq_false, reduceIte, hmask]
      cases r
      simp_all
  · simp only [hcnt, if_true, reduceIte, hmask]

/-- Recording a fresh vote: under a matching epoch (or an untouched
accumulator), a vote by a slot that has not yet responded updates the
state and decides the outcome by the engine's `u8` arithmetic. -/
theorem insert_response_record {Response : Type} [DecidableEq Response]
    (N blk i thr : Nat) (r : Responses) (t : Response → Nat) (v : Response)
    (hepoch : r.key_servers_change_block = blk ∨ r.responded_key_servers_count = 0)
    (hset : r.responded_key_servers_mask.is_set i = false) :
    insert_response N blk i thr r t v =
      (if r.max_response_support ≤ add8 (t v) 1 ∧ thr ≤ sub8 (add8 (t v) 1) 1 then
        ResponseSupport.Confirmed
       else if sub8 (add8 (max r.max_response_support (add8 (t v) 1))
              (sub8 N (add8 r.responded_key_servers_count 1))) 1 < thr then
        ResponseSupport.Impossible
       else ResponseSupport.Unconfirmed,
       { key_servers_change_block := blk
         responded_key_servers_mask :=
           r.responded_key_servers_mask.union (KeyServersMask.from_index i)
         responded_key_servers_count := add8 r.responded_key_servers_count 1
         max_response_support := max r.max_response_support (add8 (t v) 1) },
       fun w => if w = v then add8 (t v) 1 else t w) := by
  have hmask : ¬ (r.responded_key_servers_mask.union (KeyServersMask.from_index i)
      = r.responded_key_servers_mask) := by
    intro h
    have h2 := (KeyServersMask.union_from_index_eq_iff r.responded_key_servers_mask i).mp h
    rw [h2] at hset
    simp at hset
  unfold insert_response
  have hsplit : r.responded_key_servers_count = 0 ∨
      (¬ r.responded_key_servers_count = 0 ∧ r.key_servers_change_block = blk) := by
    tauto
  rcases hsplit with hc | ⟨hc, hb⟩
  · simp only [hc, if_true, reduceIte, hmask, if_false]
    by_cases hmax : r.max_response_support ≤ add8 (t v) 1
    · by_cases hthr : thr ≤ sub8 (add8 (t v) 1) 1
      · simp [hmax, hthr, max_eq_right hmax, hc]
      · simp only [hmax, hthr, if_true, if_false, reduceIte, decide_eq_true_eq,
          max_eq_right hmax, hc, and_true, and_false]
        split <;> first | rfl | (split <;> rfl) | simp_all
    · have hmax' : max r.max_response_support (add8 (t v) 1) = r.max_response_support :=
        max_eq_left (le_of_not_le hmax)
      simp only [hmax, if_false, reduceIte, hmax', hc, false_and]
      split <;> first | rfl | (split <;> rfl) | simp_all
  · simp only [hc, hb, if_false, ne_eq, not_true_eq_false, reduceIte, hmask, if_true]
    by_cases hmax : r.max_response_support ≤ add8 (t v) 1
    · by_cases hthr : thr ≤ sub8 (add8 (t v) 1) 1
      · simp [hmax, hthr, max_eq_right hmax]
      · simp only [hmax, hthr, if_true, if_false, reduceIte, decide_eq_true_eq,
          max_eq_right hmax, and_true, and_false]
        split <;> first | rfl | (split <;> rfl) | simp_all
    · have hmax' : max r.max_response_support (add8 (t v) 1) = r.max_response_support :=
        max_eq_left (le_of_not_le hmax)
      simp only [hmax, if_false, reduceIte, hmax', false_and]
      split <;> first | rfl | (split <;> rfl) | simp_all

/-- The default mask is a left identity of `union`. -/
theorem KeyServersMask.default_union (b : KeyServersMask) :
    KeyServersMask.default.union b = b := by
  cases b
  simp only [KeyServersMask.union, KeyServersMask.default, KeyServersMask.mk.injEq]
  constructor <;> (apply Nat.eq_of_testBit_eq; intro k; simp [Nat.testBit_or])

/-- Supporting fact: a non-confirming call preserves the bound
`max_response_support ≤ threshold` for that call's threshold. So for a
request whose calls all use one fixed threshold the bound is an invariant
of active requests; it is NOT one for server-key-retrieval stage B, where
each call passes the reporter's own claimed threshold
(`server_key_retrieval.rs:220-226`, see
`insert_response_confirmed_iff_counterexample`). -/
theorem insert_response_active_invariant {Response : Type} [DecidableEq Response]
    (N blk i thr : Nat) (r : Responses) (t : Response → Nat) (v : Response)
    (hprev : r.max_response_support ≤ thr)
    (hres : (insert_response N blk i thr r t v).1 ≠ ResponseSupport.Confirmed) :
    (insert_response N blk i thr r t v).2.1.max_response_support ≤ thr := by
  have main : ∀ (r' : Responses) (t' : Response → Nat),
      r'.max_response_support ≤ thr →
      (r'.key_servers_change_block = blk ∨ r'.responded_key_servers_count = 0) →
      (insert_response N blk i thr r' t' v).1 ≠ ResponseSupport.Confirmed →
      (insert_response N blk i thr r' t' v).2.1.max_response_support ≤ thr := by
    intro r' t' hprev' hepoch' hres'
    cases hset : r'.responded_key_servers_mask.is_set i with
    | true =>
        rw [insert_response_already_responded N blk i thr r' t' v hepoch' hset]
        exact hprev'
    | false =>
        rw [insert_response_record N blk i thr r' t' v hepoch' hset] at hres' ⊢
        by_cases h1 : r'.max_response_support ≤ add8 (t' v) 1 ∧
            thr ≤ sub8 (add8 (t' v) 1) 1
        · rw [if_pos h1] at hres'
          exact absurd rfl hres'
        · rw [if_neg h1] at hres' ⊢
          have : max r'.max_response_support (add8 (t' v) 1) ≤ thr := by
            rcases le_or_lt (add8 (t' v) 1) r'.max_response_support with hle | hlt
            · rw [max_eq_left hle]; exact hprev'
            · rw [max_eq_right (le_of_lt hlt)]
              have h2 : ¬ thr ≤ sub8 (add8 (t' v) 1) 1 := fun hx =>
                h1 ⟨le_of_lt hlt, hx⟩
              have hsub : sub8 (add8 (t' v) 1) 1 = add8 (t' v) 1 - 1 :=
                sub8_eq _ _ (add8_lt _ _) (by omega)
              rcases Nat.eq_zero_or_pos (add8 (t' v) 1) with hz | hp
              · omega
              · rw [hsub] at h2; omega
          split <;> exact this
  by_cases hepoch : r.key_servers_change_block = blk ∨ r.responded_key_servers_count = 0
  · exact main r t hprev hepoch hres
  · push_neg at hepoch
    rw [insert_response_stale_epoch N blk i thr r t v hepoch.2 hepoch.1] at hres ⊢
    exact main (new_responses blk) (fun _ => 0) (by simp [new_responses]) (Or.inr rfl) hres

/-- Counterexample to C1 as stated: a state reached in server-key
retrieval stage B, where each report carries its own claimed threshold
(`server_key_retrieval.rs:220-226`). Slots 0 and 1 reported value `1`
under claimed threshold 5, so the request is still active with
`max_response_support = 2`; slot 2 now reports the fresh value `9` under
claimed threshold 0. Its post-vote support is `s = 1` and
`threshold ≤ s − 1` holds (`0 ≤ 0`), yet the engine skips the Confirmed
check because `s` is below the current `max_response_support` and returns
`Unconfirmed` — refuting the claim exactly in the below-max case it says
it covers. -/
theorem insert_response_confirmed_iff_counterexample :
    (insert_response 5 0 2 0
        (Responses.mk 0
          ((KeyServersMask.from_index 0).union (KeyServersMask.from_index 1)) 2 2)
        (fun w : Nat => if w = 1 then 2 else 0) 9).1 = ResponseSupport.Unconfirmed
    ∧ (0 : Nat) ≤ (0 + 1) - 1
    ∧ (insert_response 5 0 2 0
        (Responses.mk 0
          ((KeyServersMask.from_index 0).union (KeyServersMask.from_index 1)) 2 2)
        (fun w : Nat => if w = 1 then 2 else 0) 9).1 ≠ ResponseSupport.Confirmed := by
  refine ⟨?_, ?_, ?_⟩ <;> decide

/-- Claim C1, amended: For every call of `insert_response` by a slot that
has not yet responded, after any epoch reset has been applied, the result
is `Confirmed` iff the reported value's post-vote support `s` has reached
the current `max_response_support` AND `threshold ≤ s − 1` (both computed
in `u8`, `s = support(value) + 1`); in particular a reported value whose
support stays below the current `max_response_support` is never
`Confirmed`, whatever the threshold. -/
theorem insert_response_confirmed_iff {Response : Type} [DecidableEq Response]
    (N blk i thr : Nat) (r : Responses) (t : Response → Nat) (v : Response)
    (hepoch : r.key_servers_change_block = blk ∨ r.responded_key_servers_count = 0)
    (hnot : r.responded_key_servers_mask.is_set i = false) :
    (insert_response N blk i thr r t v).1 = ResponseSupport.Confirmed
      ↔ (r.max_response_support ≤ add8 (t v) 1
          ∧ thr ≤ sub8 (add8 (t v) 1) 1) := by
  rw [insert_response_record N blk i thr r t v hepoch hnot]
  by_cases hcond : r.max_response_support ≤ add8 (t v) 1
      ∧ thr ≤ sub8 (add8 (t v) 1) 1
  · rw [if_pos hcond]
    simp [hcond]
  · rw [if_neg hcond]
    constructor
    · intro h
      split at h <;> simp_all
    · intro h
      exact absurd h hcond

/-- Witness for C1 (amended): on a fresh accumulator with threshold 0,
the first vote reaches the maximum and is immediately confirmed. -/
theorem insert_response_confirmed_iff_witness :
    (insert_response 3 0 0 0 (new_responses 0) (fun _ : Nat => 0) 7).1
      = ResponseSupport.Confirmed
      ↔ ((new_responses 0).max_response_support ≤ add8 0 1 ∧ 0 ≤ sub8 (add8 0 1) 1) :=
  insert_response_confirmed_iff 3 0 0 0 (new_responses 0) (fun _ : Nat => 0) 7
    (Or.inr rfl) (by decide)

/-- Claim C2, amended: For every call of `insert_response` that records a
new vote and does not return `Confirmed`, PROVIDED the current population
`N` is at most 255 (so the `u8` cast `key_servers_count()` does not wrap;
the set can hold all 256 slots, in which case the cast wraps to 0 and the
engine's `u8` arithmetic departs from the population arithmetic, see the
counterexample) and the accumulator is in a reachable configuration
(`max_support ≤ responded_count < N`, `support(value) ≤ responded_count`),
the result is `Impossible` iff
`threshold > max_support + (N − responded_count) − 1` with `max_support`
and `responded_count` taken after the vote is recorded; otherwise it is
`Unconfirmed`. -/
theorem insert_response_impossible_iff {Response : Type} [DecidableEq Response]
    (N blk i thr : Nat) (r : Responses) (t : Response → Nat) (v : Response)
    (hepoch : r.key_servers_change_block = blk ∨ r.responded_key_servers_count = 0)
    (hnot : r.responded_key_servers_mask.is_set i = false)
    (hN : N ≤ 255)
    (hcnt : r.responded_key_servers_count < N)
    (hmax : r.max_response_support ≤ r.responded_key_servers_count)
    (htv : t v ≤ r.responded_key_servers_count)
    (hres : (insert_response N blk i thr r t v).1 ≠ ResponseSupport.Confirmed) :
    ((insert_response N blk i thr r t v).1 = ResponseSupport.Impossible
      ↔ max r.max_response_support (t v + 1)
          + (N - (r.responded_key_servers_count + 1)) - 1 < thr)
    ∧ ((insert_response N blk i thr r t v).1 = ResponseSupport.Unconfirmed
      ↔ ¬ (max r.max_response_support (t v + 1)
          + (N - (r.responded_key_servers_count + 1)) - 1 < thr)) := by
  have hrec := insert_response_record N blk i thr r t v hepoch hnot
  rw [hrec] at hres ⊢
  have hs : add8 (t v) 1 = t v + 1 := add8_eq _ _ (by omega)
  have hc8 : add8 r.responded_key_servers_count 1 = r.responded_key_servers_count + 1 :=
    add8_eq _ _ (by omega)
  have hleft : sub8 N (r.responded_key_servers_count + 1)
      = N - (r.responded_key_servers_count + 1) := sub8_eq _ _ (by omega) (by omega)
  have hmle : max r.max_response_support (t v + 1) ≤ r.responded_key_servers_count + 1 :=
    max_le (by omega) (by omega)
  have hadd : add8 (max r.max_response_support (t v + 1))
        (N - (r.responded_key_servers_count + 1))
      = max r.max_response_support (t v + 1) + (N - (r.responded_key_servers_count + 1)) :=
    add8_eq _ _ (by omega)
  have hge1 : 1 ≤ max r.max_response_support (t v + 1) := le_max_of_le_right (by omega)
  have hsub : sub8 (max r.max_response_support (t v + 1)
        + (N - (r.responded_key_servers_count + 1))) 1
      = max r.max_response_support (t v + 1)
        + (N - (r.responded_key_servers_count + 1)) - 1 :=
    sub8_eq _ _ (by omega) (by omega)
  rw [hs, hc8, hleft, hadd, hsub] at hres ⊢
  by_cases h1 : r.max_response_support ≤ t v + 1 ∧ thr ≤ sub8 (t v + 1) 1
  · rw [if_pos h1] at hres
    exact absurd rfl hres
  · rw [if_neg h1] at hres ⊢
    by_cases h2 : max r.max_response_support (t v + 1)
        + (N - (r.responded_key_servers_count + 1)) - 1 < thr
    · rw [if_pos h2]
      simp [h2]
    · rw [if_neg h2]
      simp [h2]

/-- Witness for C2: five servers, threshold 3, three disagreeing votes in;
a fourth distinct vote makes agreement impossible. -/
theorem insert_response_impossible_iff_witness :
    ((insert_response 5 0 3 3
        (Responses.mk 0 ((((KeyServersMask.from_index 0).union
          (KeyServersMask.from_index 1))).union (KeyServersMask.from_index 2)) 3 1)
        (fun w : Nat => if w ≤ 2 then 1 else 0) 9).1 = ResponseSupport.Impossible
      ↔ max 1 (0 + 1) + (5 - (3 + 1)) - 1 < 3)
    ∧ ((insert_response 5 0 3 3
        (Responses.mk 0 ((((KeyServersMask.from_index 0).union
          (KeyServersMask.from_index 1))).union (KeyServersMask.from_index 2)) 3 1)
        (fun w : Nat => if w ≤ 2 then 1 else 0) 9).1 = ResponseSupport.Unconfirmed
      ↔ ¬ (max 1 (0 + 1) + (5 - (3 + 1)) - 1 < 3)) :=
  insert_response_impossible_iff 5 0 3 3
    (Responses.mk 0 ((((KeyServersMask.from_index 0).union
      (KeyServersMask.from_index 1))).union (KeyServersMask.from_index 2)) 3 1)
    (fun w : Nat => if w ≤ 2 then 1 else 0) 9
    (Or.inl rfl) (by decide) (by decide) (by decide) (by decide) (by decide) (by decide)

/-- Counterexample to C2 as stated: with a current set occupying all 256
slots (`key_server_set_storage::append` allows exactly 256 servers),
`key_servers_count()` is the `u8` cast of the set size and wraps to `0`,
which is what `insert_response` receives as `key_servers_count`. All 256
servers acknowledge one value (threshold 255, as in `on_stored`); at the
256th recorded vote the stored support and count wrap to `0`, the
wrapped impossibility check `255 > 254` fires and the engine returns
`Impossible` — while the claim's arithmetic over the true population
(`max_support = responded_count = N = 256` after the vote:
`255 > 256 + (256 − 256) − 1` is false) demands `Unconfirmed`. The mask
`⟨2^128 − 1, 2^127 − 1⟩` has slots `0 … 254` set; slot 255 casts the
fresh, recorded vote. -/
theorem insert_response_impossible_iff_counterexample :
    (insert_response 0 0 255 255
        (Responses.mk 0 ⟨2 ^ 128 - 1, 2 ^ 127 - 1⟩ 255 255)
        (fun _ : Unit => 255) ()).1 = ResponseSupport.Impossible
    ∧ ¬ (256 + (256 - 256) - 1 < 255)
    ∧ (insert_response 0 0 255 255
        (Responses.mk 0 ⟨2 ^ 128 - 1, 2 ^ 127 - 1⟩ 255 255)
        (fun _ : Unit => 255) ()).1 ≠ ResponseSupport.Unconfirmed := by
  refine ⟨?_, ?_, ?_⟩ <;> decide

/-- Claim C3: Epoch binding/reset of `insert_response`: with zero recorded
votes the accumulator adopts the current set-change block; with recorded
votes and a stale stored epoch the call behaves exactly as on a freshly
created accumulator with an empty support table, and the new vote is then
recorded (the participant votes again). -/
theorem insert_response_epoch_handling {Response : Type} [DecidableEq Response]
    (N blk i thr : Nat) (r : Responses) (t : Response → Nat) (v : Response) :
    (r.responded_key_servers_count = 0 →
      insert_response N blk i thr r t v
        = insert_response N blk i thr { r with key_servers_change_block := blk } t v
      ∧ (insert_response N blk i thr r t v).2.1.key_servers_change_block = blk)
    ∧ (r.responded_key_servers_count ≠ 0 → r.key_servers_change_block ≠ blk →
      insert_response N blk i thr r t v
        = insert_response N blk i thr (new_responses blk) (fun _ => 0) v
      ∧ (insert_response N blk i thr r t v).2.1.responded_key_servers_mask
          = KeyServersMask.from_index i
      ∧ (insert_response N blk i thr r t v).2.1.responded_key_servers_count = 1
      ∧ (insert_response N blk i thr r t v).2.1.max_response_support = 1
      ∧ (insert_response N blk i thr r t v).2.2 v = 1
      ∧ ∀ w, w ≠ v → (insert_response N blk i thr r t v).2.2 w = 0) := by
  constructor
  · intro hc
    constructor
    · unfold insert_response
      simp only [hc, if_true, reduceIte]
    · cases hset : r.responded_key_servers_mask.is_set i with
      | true =>
          rw [insert_response_already_responded N blk i thr r t v (Or.inr hc) hset]
      | false =>
          rw [insert_response_record N blk i thr r t v (Or.inr hc) hset]
  · intro hc hblk
    have heq := insert_response_stale_epoch N blk i thr r t v hc hblk
    have hrec := insert_response_record N blk i thr (new_responses blk) (fun _ => 0) v
      (Or.inr rfl) (by simp [new_responses, KeyServersMask.default_is_set])
    refine ⟨heq, ?_, ?_, ?_, ?_, ?_⟩
    · rw [heq, hrec]
      simp [new_responses, KeyServersMask.default_union]
    · rw [heq, hrec]
      simp [new_responses, add8]
    · rw [heq, hrec]
      simp [new_responses, add8]
    · rw [heq, hrec]
      simp [add8]
    · intro w hw
      rw [heq, hrec]
      simp [hw]

/-- Witness for C3: a stale-epoch accumulator with one recorded vote is
wiped and the repeated vote is recorded afresh. -/
theorem insert_response_epoch_handling_witness :
    insert_response 3 1 0 2 (Responses.mk 0 (KeyServersMask.from_index 2) 1 1)
        (fun _ : Nat => 1) 5
      = insert_response 3 1 0 2 (new_responses 1) (fun _ => 0) 5 :=
  ((insert_response_epoch_handling 3 1 0 2
      (Responses.mk 0 (KeyServersMask.from_index 2) 1 1) (fun _ : Nat => 1) 5).2
    (by decide) (by decide)).1

/-- Counterexample to C4 as stated: when the stored epoch differs from the
current set-change block, a slot that is already set in `responded_mask`
does *not* get the idempotent treatment — the epoch reset wipes the mask
first, the vote is recorded again, the accumulator changes, and the call
can even return `Confirmed`. -/
theorem insert_response_idempotence_counterexample :
    (Responses.mk 0 ((KeyServersMask.from_index 0).union (KeyServersMask.from_index 1))
        2 2).responded_key_servers_mask.is_set 0 = true
    ∧ (insert_response 2 1 0 0
        (Responses.mk 0 ((KeyServersMask.from_index 0).union (KeyServersMask.from_index 1)) 2 2)
        (fun w : Nat => if w = 42 then 2 else 0) 42).1 ≠ ResponseSupport.Unconfirmed
    ∧ (insert_response 2 1 0 0
        (Responses.mk 0 ((KeyServersMask.from_index 0).union (KeyServersMask.from_index 1)) 2 2)
        (fun w : Nat => if w = 42 then 2 else 0) 42).2.1.responded_key_servers_count ≠ 2 := by
  refine ⟨by decide, ?_, ?_⟩ <;> decide

/-- Claim C4, amended: Provided the accumulator's stored epoch equals the
current set-change block (or no votes are recorded yet, so that no epoch
reset intervenes), a call by a slot already set in `responded_mask` returns
`Unconfirmed` and leaves the mask, responded count, max support and the
whole support table unchanged, for any reported value. -/
theorem insert_response_idempotent {Response : Type} [DecidableEq Response]
    (N blk i thr : Nat) (r : Responses) (t : Response → Nat) (v : Response)
    (hepoch : r.key_servers_change_block = blk ∨ r.responded_key_servers_count = 0)
    (hset : r.responded_key_servers_mask.is_set i = true) :
    (insert_response N blk i thr r t v).1 = ResponseSupport.Unconfirmed
    ∧ (insert_response N blk i thr r t v).2.1.responded_key_servers_mask
        = r.responded_key_servers_mask
    ∧ (insert_response N blk i thr r t v).2.1.responded_key_servers_count
        = r.responded_key_servers_count
    ∧ (insert_response N blk i thr r t v).2.1.max_response_support
        = r.max_response_support
    ∧ (insert_response N blk i thr r t v).2.2 = t := by
  rw [insert_response_already_responded N blk i thr r t v hepoch hset]
  exact ⟨rfl, rfl, rfl, rfl, rfl⟩

/-- Witness for C4 (amended): a repeated vote under a matching epoch is a
no-op returning `Unconfirmed`. -/
theorem insert_response_idempotent_witness :
    (insert_response 3 0 0 1 (Responses.mk 0 (KeyServersMask.from_index 0) 1 1)
        (fun _ : Nat => 1) 5).1 = ResponseSupport.Unconfirmed
    ∧ (insert_response 3 0 0 1 (Responses.mk 0 (KeyServersMask.from_index 0) 1 1)
        (fun _ : Nat => 1) 5).2.1.responded_key_servers_mask = KeyServersMask.from_index 0
    ∧ (insert_response 3 0 0 1 (Responses.mk 0 (KeyServersMask.from_index 0) 1 1)
        (fun _ : Nat => 1) 5).2.1.responded_key_servers_count = 1 := by
  have h := insert_response_idempotent 3 0 0 1
    (Responses.mk 0 (KeyServersMask.from_index 0) 1 1) (fun _ : Nat => 1) 5
    (Or.inl rfl) (by decide)
  exact ⟨h.1, h.2.1, h.2.2.1⟩

/-- Claim C10: For `threshold = 255` the check compares `0` against `N` and
passes for every population size `N ≥ 1`, even though `255` exceeds
`N − 1` (the population is at most 255, as `key_servers_count` is the
`u8` cast of the set size). -/
theorem generate_threshold_check_wraps (N : Nat) (h1 : 1 ≤ N) (h255 : N ≤ 255) :
    generate_threshold_check 255 N = true ∧ N - 1 < 255 := by
  constructor
  · simp [generate_threshold_check, add8]
  · omega

/-- Witness for C10: with five key servers the wrapped check accepts
threshold 255. -/
theorem generate_threshold_check_wraps_witness :
    generate_threshold_check 255 5 = true ∧ 5 - 1 < 255 :=
  generate_threshold_check_wraps 5 (by decide) (by decide)

/-- Counterexample to C5 as stated: after the first report `P1` is the
remembered key with support 1; the second report's value `P2` merely *ties*
that support level (both supports are 1), yet the remembered
`server_key_with_max_threshold` is replaced by `P2`. -/
theorem skr_tie_counterexample :
    skrTieStep1.request.server_key_with_max_threshold = 1
    ∧ skrTieStep2.request.server_key_with_max_threshold = 2
    ∧ skrTieStep2.key_table 1 = 1
    ∧ skrTieStep2.key_table 2 = 1
    ∧ skrTieStep2.request.responses.max_response_support = 1 := by
  refine ⟨?_, ?_, ?_, ?_, ?_⟩ <;> decide

/-- Claim C5, amended: While the threshold stage is still `Unconfirmed`, the
remembered `server_key_with_max_threshold` is the *most recent* reported
value (with a valid threshold claim) whose post-vote support equals the
updated `max_response_support`: a later value that merely ties the leading
support level *replaces* the remembered value; in every other case the
remembered value is unchanged. -/
theorem skr_remembered_key_on_tie (N blk i : Nat) (req : ServerKeyRetrievalRequest)
    (tt kt : Nat → Nat) (v thr : Nat)
    (hunconf : (insert_response N blk i (N / 2) req.threshold_responses tt thr).1
      = ResponseSupport.Unconfirmed) :
    ((thr ≠ INVALID_THRESHOLD ∧
        (skr_insert_response N blk i req tt kt v thr).request.responses.max_response_support
          = (skr_insert_response N blk i req tt kt v thr).key_table v) →
      (skr_insert_response N blk i req tt kt v thr).request.server_key_with_max_threshold = v)
    ∧ (¬ (thr ≠ INVALID_THRESHOLD ∧
        (skr_insert_response N blk i req tt kt v thr).request.responses.max_response_support
          = (skr_insert_response N blk i req tt kt v thr).key_table v) →
      (skr_insert_response N blk i req tt kt v thr).request.server_key_with_max_threshold
        = req.server_key_with_max_threshold) := by
  simp only [skr_insert_response]
  rw [hunconf]
  rw [if_neg (by decide : ¬ (ResponseSupport.Unconfirmed = ResponseSupport.Impossible))]
  rw [if_pos (rfl : ResponseSupport.Unconfirmed = ResponseSupport.Unconfirmed)]
  split_ifs with hcond
  · exact ⟨fun _ => rfl, fun h => absurd hcond h⟩
  · exact ⟨fun h => absurd h hcond, fun _ => rfl⟩

/-- Witness for C5 (amended): the very first report of `(P1 = 1, thr 1)` on
a fresh request makes `P1` the remembered key. -/
theorem skr_remembered_key_on_tie_witness :
    (skr_insert_response 5 0 0
        ⟨new_responses 0, new_responses 0, 0⟩ (fun _ => 0) (fun _ => 0) 1
        1).request.server_key_with_max_threshold = 1 :=
  (skr_remembered_key_on_tie 5 0 0 ⟨new_responses 0, new_responses 0, 0⟩
    (fun _ => 0) (fun _ => 0) 1 1 (by decide)).1 (by decide)

/-- Counterexample to C9 as stated: during the personal phase
(`threshold = some 1`), a current key server that has already voted in the
common phase and has seen no epoch change is still reported as outstanding
by the code (`threshold.is_some() ||` short-circuits to `true`), while the
claim says it must not be. -/
theorem shadow_is_response_required_counterexample :
    shadow_is_response_required (fun id => if id = 10 then some 0 else none) 5 10
        (some ⟨0, 0, Responses.mk 5 (KeyServersMask.from_index 0) 1 1, some 1,
          KeyServersMask.default, 0⟩) = true
    ∧ claimed_shadow_response_required (fun id => if id = 10 then some 0 else none) 5 10
        (some ⟨0, 0, Responses.mk 5 (KeyServersMask.from_index 0) 1 1, some 1,
          KeyServersMask.default, 0⟩) = false := by
  refine ⟨?_, ?_⟩ <;> decide

/-- Claim C9, amended: For an active shadow-retrieval request,
`is_response_required` returns `true` iff the personal phase is active
(`threshold` fixed) — for *any* queried server, member or not, voted or
not — or the queried server is a current member and either the common
accumulator's stored epoch differs from the current set-change block or
the server has not voted in the common phase. -/
theorem shadow_is_response_required_iff (cks : Nat → Option Nat) (blk ks : Nat)
    (req : DocumentKeyShadowRetrievalRequest) :
    shadow_is_response_required cks blk ks (some req) = true ↔
      (req.threshold.isSome = true ∨
        ∃ idx, cks ks = some idx ∧
          (blk ≠ req.common_responses.key_servers_change_block ∨
            req.common_responses.responded_key_servers_mask.is_set idx = false)) := by
  unfold shadow_is_response_required service_is_response_required
  cases h : cks ks with
  | none => simp [h]
  | some idx => simp [h, Bool.or_eq_true, decide_eq_true_eq]

/-- Claim C6: While a migration is active: a `confirm_migration` call by a
not-yet-confirmed migration-set member only records the confirmation as
long as some member is still missing, leaving the current set, the new
set, the migration data and the set-change block unchanged; the call by
which every member has confirmed clears all confirmations, replaces the
current set by the migration snapshot, clears the migration set, removes
the migration id and sets the set-change block to the present block. -/
theorem confirm_migration_spec (st : KeyServerSetState)
    (caller mid master now : Nat)
    (hmid : st.migration_id = some (mid, master))
    (hmem : ∃ ks ∈ st.migration, ks.id = caller)
    (hnotconf : caller ∉ st.migration_confirmations) :
    ((∃ ks ∈ st.migration, ks.id ∉ st.migration_confirmations ++ [caller]) →
      confirm_migration st caller mid now
        = some { st with
            migration_confirmations := st.migration_confirmations ++ [caller] })
    ∧ ((∀ ks ∈ st.migration, ks.id ∈ st.migration_confirmations ++ [caller]) →
      (∀ c ∈ st.migration_confirmations, ∃ ks ∈ st.migration, ks.id = c) →
      confirm_migration st caller mid now
        = some { st with
            migration_confirmations := []
            current := st.migration
            migration := []
            current_set_change_block := now
            migration_id := none }) := by
  have hmem' : st.migration.any (fun ks => ks.id = caller) = true := by
    simp only [List.any_eq_true, decide_eq_true_eq]
    obtain ⟨ks, hks, hid⟩ := hmem
    exact ⟨ks, hks, hid⟩
  have hnc : st.migration_confirmations.contains caller = false := by
    simp only [List.contains, List.elem_eq_mem, decide_eq_false_iff_not]
    exact hnotconf
  constructor
  · intro hpartial
    have hall : st.migration.all
        (fun ks => (st.migration_confirmations ++ [caller]).contains ks.id) = false := by
      obtain ⟨ks, hks, hnot⟩ := hpartial
      rw [← Bool.not_eq_true, List.all_eq_true]
      intro hforall
      have hcont := hforall ks hks
      simp only [List.contains, List.elem_eq_mem, decide_eq_true_eq] at hcont
      exact hnot hcont
    simp only [confirm_migration, hmid, ne_eq, not_true_eq_false, reduceIte,
      hmem', not_false_eq_true, hnc, Bool.false_eq_true, hall]
  · intro hcomplete hconf
    have hall : st.migration.all
        (fun ks => (st.migration_confirmations ++ [caller]).contains ks.id) = true := by
      rw [List.all_eq_true]
      intro ks hks
      simp only [List.contains, List.elem_eq_mem, decide_eq_true_eq]
      exact hcomplete ks hks
    have hfilter : (st.migration_confirmations ++ [caller]).filter
        (fun c => ¬ st.migration.any (fun ks => ks.id = c)) = [] := by
      rw [List.filter_eq_nil_iff]
      intro c hc
      have hcmem : ∃ ks ∈ st.migration, ks.id = c := by
        rcases List.mem_append.mp hc with hc1 | hc2
        · exact hconf c hc1
        · obtain ⟨ks, hks, hid⟩ := hmem
          have : c = caller := by simpa using hc2
          exact ⟨ks, hks, by rw [this]; exact hid⟩
      simp only [List.any_eq_true, decide_eq_true_eq, decide_eq_true_eq,
        not_not, decide_not, Bool.not_eq_true', decide_eq_false_iff_not, not_not]
      exact hcmem
    simp only [confirm_migration, hmid, ne_eq, not_true_eq_false, reduceIte,
      hmem', not_false_eq_true, hnc, Bool.false_eq_true, hall, hfilter]

/-- Witness for C6: a two-member migration set: the first confirmation only
records itself; the second completes the migration, adopts the snapshot
and bumps the set-change block. -/
theorem confirm_migration_spec_witness :
    confirm_migration
        (KeyServerSetState.mk [⟨0, 10, 0⟩] [⟨0, 10, 0⟩, ⟨1, 11, 0⟩]
          [⟨0, 10, 0⟩, ⟨1, 11, 0⟩] (some (42, 10)) [10] 0) 11 42 9
      = some (KeyServerSetState.mk [⟨0, 10, 0⟩, ⟨1, 11, 0⟩] [⟨0, 10, 0⟩, ⟨1, 11, 0⟩]
          [] none [] 9) := by
  have h := confirm_migration_spec
    (KeyServerSetState.mk [⟨0, 10, 0⟩] [⟨0, 10, 0⟩, ⟨1, 11, 0⟩]
      [⟨0, 10, 0⟩, ⟨1, 11, 0⟩] (some (42, 10)) [10] 0) 11 42 10 9
    rfl ⟨⟨1, 11, 0⟩, by simp, rfl⟩ (by decide)
  exact h.2 (by decide) (by decide)

theorem not_mem_of_list_position_eq_none {x : Nat} {l : List Nat}
    (h : list_position x l = none) : x ∉ l := by
  induction l with
  | nil => simp
  | cons y t ih =>
      by_cases hy : y = x
      · simp [list_position, hy] at h
      · simp only [list_position, hy, if_false, reduceIte, Option.map_eq_none'] at h
        intro hmem
        rcases List.mem_cons.mp hmem with rfl | hmem'
        · exact hy rfl
        · exact ih h hmem'

/-- After `delete_request`'s `position` + `swap_remove` step, the removed
key is no longer in the (duplicate-free) pending list. -/
theorem not_mem_remove_request_key {l : List Nat} {x : Nat} (hnd : l.Nodup) :
    x ∉ remove_request_key l x := by
  induction l with
  | nil => simp [remove_request_key, list_position]
  | cons y t ih =>
    obtain ⟨hy_nott, hndt⟩ := List.nodup_cons.mp hnd
    by_cases hy : y = x
    · subst hy
      simp only [remove_request_key, list_position, if_pos rfl]
      unfold swap_remove
      cases t with
      | nil => simp
      | cons a u =>
        cases hlast : (y :: a :: u).getLast? with
        | none => simp at hlast
        | some last =>
            simp only [List.set_cons_zero]
            intro hmem
            have hsub : y ∈ last :: a :: u := List.dropLast_subset _ hmem
            have hlast2 : (a :: u).getLast? = some last := by
              rw [← List.getLast?_cons_cons]; exact hlast
            have hlastmem : last ∈ a :: u := List.mem_of_getLast?_eq_some hlast2
            rcases List.mem_cons.mp hsub with hEq | hmem2
            · exact hy_nott (hEq ▸ hlastmem)
            · exact hy_nott hmem2
    · simp only [remove_request_key, list_position, hy, if_false, reduceIte]
      cases hp : list_position x t with
      | none =>
          simp only [Option.map_none']
          intro hmem
          rcases List.mem_cons.mp hmem with rfl | hmem'
          · exact hy rfl
          · exact not_mem_of_list_position_eq_none hp hmem'
      | some j =>
          simp only [Option.map_some']
          unfold swap_remove
          cases t with
          | nil => simp [list_position] at hp
          | cons a u =>
            cases hlast : (y :: a :: u).getLast? with
            | none => simp at hlast
            | some last =>
              simp only [List.set_cons_succ]
              have hM : (a :: u).set j last ≠ [] := by
                intro hM0
                have := congrArg List.length hM0
                simp at this
              rw [List.dropLast_cons_of_ne_nil hM]
              intro hmem
              rcases List.mem_cons.mp hmem with rfl | hmem'
              · exact hy rfl
              · have hIH := ih hndt
                apply hIH
                simp only [remove_request_key, hp]
                unfold swap_remove
                cases hlast' : (a :: u).getLast? with
                | none => simp at hlast'
                | some last' =>
                    have hll : last = last' := by
                      rw [← List.getLast?_cons_cons (a := y)] at hlast'
                      rw [hlast'] at hlast
                      exact (Option.some.injEq _ _ ▸ hlast).symm
                    rw [← hll]
                    exact hmem'

/-- Claim C7: For every active generation or store request, an explicit error
report from any current key server deletes the request, its queued key and
all its accumulated responses, and emits the task's failure event —
regardless of the accumulated vote state (no hypothesis constrains it). -/
theorem on_error_fatal (k id : Nat)
    (genSt : GenerationModuleState) (storeSt : StoreModuleState)
    (genReq : ServerKeyGenerationRequest) (storeReq : DocumentKeyStoreRequest)
    (hgen : genSt.requests id = some genReq)
    (hgennd : genSt.requests_keys.Nodup)
    (hstore : storeSt.requests id = some storeReq)
    (hstorend : storeSt.requests_keys.Nodup) :
    (∃ st', on_generation_error (some k) id genSt = some st'
      ∧ st'.requests id = none
      ∧ id ∉ st'.requests_keys
      ∧ (∀ v, st'.responses_table id v = 0)
      ∧ st'.events = genSt.events ++ [Event.ServerKeyGenerationError id])
    ∧ (∃ st', on_store_error (some k) id storeSt = some st'
      ∧ st'.requests id = none
      ∧ id ∉ st'.requests_keys
      ∧ st'.responses_table id = 0
      ∧ st'.events = storeSt.events ++ [Event.DocumentKeyStoreError id]) := by
  constructor
  · refine ⟨{ generation_delete_request id genSt with
        events := genSt.events ++ [Event.ServerKeyGenerationError id] },
      ?_, ?_, ?_, ?_, ?_⟩
    · simp only [on_generation_error, hgen]
    · simp [generation_delete_request]
    · exact not_mem_remove_request_key hgennd
    · intro v
      simp [generation_delete_request]
    · rfl
  · refine ⟨{ store_delete_request id storeSt with
        events := storeSt.events ++ [Event.DocumentKeyStoreError id] },
      ?_, ?_, ?_, ?_, ?_⟩
    · simp only [on_store_error, hstore]
    · simp [store_delete_request]
    · exact not_mem_remove_request_key hstorend
    · simp [store_delete_request]
    · rfl

/-- Witness for C7: singleton queues holding request 7 with accumulated
responses; the error reports wipe both modules' state for it. -/
theorem on_error_fatal_witness :
    (∃ st', on_generation_error (some 0) 7
        (GenerationModuleState.mk
          (fun i => if i = 7 then some ⟨1, 2, new_responses 0⟩ else none)
          [7] (fun _ _ => 3) []) = some st'
      ∧ st'.requests 7 = none
      ∧ 7 ∉ st'.requests_keys
      ∧ (∀ v, st'.responses_table 7 v = 0)
      ∧ st'.events = [] ++ [Event.ServerKeyGenerationError 7])
    ∧ (∃ st', on_store_error (some 0) 7
        (StoreModuleState.mk
          (fun i => if i = 7 then some ⟨1, 2, 3, new_responses 0⟩ else none)
          [7] (fun _ => 3) []) = some st'
      ∧ st'.requests 7 = none
      ∧ 7 ∉ st'.requests_keys
      ∧ st'.responses_table 7 = 0
      ∧ st'.events = [] ++ [Event.DocumentKeyStoreError 7]) :=
  on_error_fatal 0 7
    (GenerationModuleState.mk
      (fun i => if i = 7 then some ⟨1, 2, new_responses 0⟩ else none)
      [7] (fun _ _ => 3) [])
    (StoreModuleState.mk
      (fun i => if i = 7 then some ⟨1, 2, 3, new_responses 0⟩ else none)
      [7] (fun _ => 3) [])
    ⟨1, 2, new_responses 0⟩ ⟨1, 2, 3, new_responses 0⟩
    (by simp) (by simp) (by simp) (by simp)

/-! ## Unreachability of the `Impossible` branch in `on_stored`
(`document_key_store.rs`)

`on_stored` votes the single unit acknowledgement value with
`threshold = key_servers_count - 1` (`u8` subtraction), reading the
population and set-change block fresh on every call. The environment of a
call is the current set of slot indices and the current set-change block;
between calls the environment may change, but (post-initialization) the
membership only changes together with a strictly increasing set-change
block. The request state is the accumulator plus the single support
counter for the unit value. -/

/-- More mask facts, used by the `on_stored` invariant. -/
theorem KeyServersMask.is_set_union_from_index_iff (m : KeyServersMask) (i j : Nat)
    (hi : i < 256) :
    ((m.union (KeyServersMask.from_index i)).is_set j = true) ↔
      (m.is_set j = true ∨ j = i) := by
  rcases eq_or_ne j i with rfl | hij
  · simp [KeyServersMask.is_set_union_from_index]
  · rw [KeyServersMask.is_set_union_from_index_ne m i j hi (Ne.symm hij)]
    simp [hij]

theorem KeyServersMask.from_index_is_set_iff (i j : Nat) (hi : i < 256) :
    ((KeyServersMask.from_index i).is_set j = true) ↔ j = i := by
  rw [← KeyServersMask.default_union (KeyServersMask.from_index i),
    KeyServersMask.is_set_union_from_index_iff _ _ _ hi]
  simp [KeyServersMask.default_is_set]

/-- The impossibility condition of `insert_response` inside `on_stored` is
arithmetically false: with all votes on one value,
`max + (N − responded) − 1 = N − 1 = threshold` exactly. -/
theorem doc_store_impossible_cond_false (N t : Nat) (h1 : 1 ≤ N) (h255 : N ≤ 255)
    (ht : t + 1 ≤ N) :
    ¬ (sub8 (add8 (max t (add8 t 1)) (sub8 N (add8 t 1))) 1 < sub8 N 1) := by
  have ha : add8 t 1 = t + 1 := add8_eq _ _ (by omega)
  have hmax : max t (t + 1) = t + 1 := max_eq_right (by omega)
  have hleft : sub8 N (t + 1) = N - (t + 1) := sub8_eq _ _ (by omega) (by omega)
  have hadd : add8 (t + 1) (N - (t + 1)) = t + 1 + (N - (t + 1)) := add8_eq _ _ (by omega)
  have hN : t + 1 + (N - (t + 1)) = N := by omega
  rw [ha, hmax, hleft, hadd, hN]
  exact lt_irrefl _

theorem ite_ne_impossible (c₁ c₂ : Prop) [Decidable c₁] [Decidable c₂] (h2 : ¬ c₂) :
    (if c₁ then ResponseSupport.Confirmed
     else if c₂ then ResponseSupport.Impossible
     else ResponseSupport.Unconfirmed) ≠ ResponseSupport.Impossible := by
  by_cases h1 : c₁
  · rw [if_pos h1]
    decide
  · rw [if_neg h1, if_neg h2]
    decide

/-- Recording a fresh unit vote keeps the invariant and cannot return
`Impossible`. -/
theorem docStoreCall_record (e : StoreEnv) (i : Nat) (r : Responses) (t : Nat)
    (hcnt : r.responded_key_servers_count = t)
    (hmaxs : r.max_response_support = t)
    (hepoch : r.key_servers_change_block = e.change_block ∨
      r.responded_key_servers_count = 0)
    (hnset : r.responded_key_servers_mask.is_set i = false)
    (hsub : ∀ j, r.responded_key_servers_mask.is_set j = true → j ∈ e.servers)
    (hcardeq : t = (e.servers.filter
      (fun j => r.responded_key_servers_mask.is_set j = true)).card)
    (hwf : ∀ j ∈ e.servers, j < 256)
    (hcard : e.servers.card ≤ 255)
    (hi : i ∈ e.servers) :
    (docStoreCall e i (r, t)).1 ≠ ResponseSupport.Impossible
    ∧ StoreInv e (docStoreCall e i (r, t)).2.1 (docStoreCall e i (r, t)).2.2 := by
  have hi256 : i < 256 := hwf i hi
  have hN1 : 1 ≤ e.servers.card := Finset.card_pos.mpr ⟨i, hi⟩
  have hfsub : e.servers.filter
      (fun j => r.responded_key_servers_mask.is_set j = true) ⊆ e.servers.erase i := by
    intro j hj
    obtain ⟨hjs, hjset⟩ := Finset.mem_filter.mp hj
    refine Finset.mem_erase.mpr ⟨?_, hjs⟩
    intro hji
    rw [hji, hnset] at hjset
    exact absurd hjset (by simp)
  have htle : t + 1 ≤ e.servers.card := by
    have hle := Finset.card_le_card hfsub
    rw [Finset.card_erase_of_mem hi] at hle
    omega
  have ht256 : t + 1 < 256 := by omega
  have hadd1 : add8 t 1 = t + 1 := add8_eq _ _ (by omega)
  have hfilter : e.servers.filter
      (fun j => ((r.responded_key_servers_mask.union
        (KeyServersMask.from_index i)).is_set j = true))
      = insert i (e.servers.filter
        (fun j => r.responded_key_servers_mask.is_set j = true)) := by
    apply Finset.ext
    intro j
    rw [Finset.mem_filter, Finset.mem_insert, Finset.mem_filter,
      KeyServersMask.is_set_union_from_index_iff _ _ _ hi256]
    constructor
    · rintro ⟨hjs, hset | rfl⟩
      · exact Or.inr ⟨hjs, hset⟩
      · exact Or.inl rfl
    · rintro (rfl | ⟨hjs, hset⟩)
      · exact ⟨hi, Or.inr rfl⟩
      · exact ⟨hjs, Or.inl hset⟩
  have hnmem : i ∉ e.servers.filter
      (fun j => r.responded_key_servers_mask.is_set j = true) := by
    intro hmem
    have := (Finset.mem_filter.mp hmem).2
    rw [hnset] at this
    exact absurd this (by simp)
  have hmod : e.servers.card % 256 = e.servers.card := Nat.mod_eq_of_lt (by omega)
  unfold docStoreCall
  rw [hmod, insert_response_record _ _ _ _ _ _ _ hepoch hnset]
  constructor
  · rw [hcnt, hmaxs]
    exact ite_ne_impossible _ _
      (doc_store_impossible_cond_false e.servers.card t hN1 hcard htle)
  · refine ⟨?_, ?_, ?_, ?_, ?_⟩
    · show add8 r.responded_key_servers_count 1 = add8 t 1
      rw [hcnt]
    · show max r.max_response_support (add8 t 1) = add8 t 1
      rw [hmaxs, hadd1]
      exact max_eq_right (by omega)
    · intro h0
      have h0' : add8 t 1 = 0 := by simpa using h0
      rw [hadd1] at h0'
      exact absurd h0' (by omega)
    · intro _
      exact le_refl _
    · intro _
      constructor
      · intro j hj
        rcases (KeyServersMask.is_set_union_from_index_iff _ _ j hi256).mp hj
          with hset | rfl
        · exact hsub j hset
        · exact hi
      · show add8 t 1 = _
        rw [hadd1, hfilter, Finset.card_insert_of_not_mem hnmem, ← hcardeq]

/-- One `on_stored` call from any state satisfying the invariant cannot
return `Impossible` and preserves the invariant. -/
theorem docStoreCall_safe (e : StoreEnv) (i : Nat) (r : Responses) (t : Nat)
    (hcnt : r.responded_key_servers_count = t)
    (hmaxs : r.max_response_support = t)
    (hzero : t = 0 → r.responded_key_servers_mask = KeyServersMask.default)
    (hsubcard : r.key_servers_change_block = e.change_block →
      (∀ j, r.responded_key_servers_mask.is_set j = true → j ∈ e.servers) ∧
      t = (e.servers.filter
        (fun j => r.responded_key_servers_mask.is_set j = true)).card)
    (hwf : ∀ j ∈ e.servers, j < 256)
    (hcard : e.servers.card ≤ 255)
    (hi : i ∈ e.servers) :
    (docStoreCall e i (r, t)).1 ≠ ResponseSupport.Impossible
    ∧ StoreInv e (docStoreCall e i (r, t)).2.1 (docStoreCall e i (r, t)).2.2 := by
  by_cases hblk : r.key_servers_change_block = e.change_block
  · by_cases hset : r.responded_key_servers_mask.is_set i = true
    · -- already responded: Unconfirmed, state unchanged (up to the epoch field)
      unfold docStoreCall
      rw [insert_response_already_responded _ _ _ _ _ _ _ (Or.inl hblk) hset]
      refine ⟨by simp, hcnt, hmaxs, hzero, fun _ => le_refl _, fun _ => hsubcard hblk⟩
    · have hset' : r.responded_key_servers_mask.is_set i = false :=
        Bool.not_eq_true _ ▸ hset
      exact docStoreCall_record e i r t hcnt hmaxs (Or.inl hblk) hset'
        (hsubcard hblk).1 (hsubcard hblk).2 hwf hcard hi
  · by_cases ht0 : t = 0
    · -- untouched accumulator under a different creation block
      have hmaskd := hzero ht0
      have hcnt0 : r.responded_key_servers_count = 0 := by rw [hcnt, ht0]
      refine docStoreCall_record e i r t hcnt hmaxs (Or.inr hcnt0) ?_ ?_ ?_ hwf hcard hi
      · rw [hmaskd]
        exact KeyServersMask.default_is_set i
      · intro j hj
        rw [hmaskd, KeyServersMask.default_is_set] at hj
        exact absurd hj (by simp)
      · rw [ht0]
        have : e.servers.filter
            (fun j => r.responded_key_servers_mask.is_set j = true) = ∅ := by
          apply Finset.filter_eq_empty_iff.mpr
          intro x _
          rw [hmaskd, KeyServersMask.default_is_set]
          simp
        rw [this, Finset.card_empty]
    · -- stale epoch: the call behaves like one on a fresh request
      have heq : docStoreCall e i (r, t)
          = docStoreCall e i (new_responses e.change_block, 0) := by
        unfold docStoreCall
        rw [insert_response_stale_epoch _ _ _ _ _ _ _ (by rw [hcnt]; exact ht0) hblk]
      rw [heq]
      refine docStoreCall_record e i (new_responses e.change_block) 0 rfl rfl
        (Or.inr rfl) ?_ ?_ ?_ hwf hcard hi
      · exact KeyServersMask.default_is_set i
      · intro j hj
        rw [show (new_responses e.change_block).responded_key_servers_mask
            = KeyServersMask.default from rfl, KeyServersMask.default_is_set] at hj
        exact absurd hj (by simp)
      · have : e.servers.filter
            (fun j => (new_responses e.change_block).responded_key_servers_mask.is_set j
              = true) = ∅ := by
          apply Finset.filter_eq_empty_iff.mpr
          intro x _
          rw [show (new_responses e.change_block).responded_key_servers_mask
            = KeyServersMask.default from rfl, KeyServersMask.default_is_set]
          simp
        rw [this, Finset.card_empty]

/-- Every reachable `on_stored` state satisfies the invariant. -/
theorem docStoreReach_inv {e : StoreEnv} {st : Responses × Nat}
    (h : DocStoreReach e st) : StoreInv e st.1 st.2 := by
  induction h with
  | init e b0 =>
      refine ⟨rfl, rfl, fun _ => rfl, fun h0 => absurd rfl h0, fun _ => ⟨?_, ?_⟩⟩
      · intro j hj
        rw [show (new_responses b0, (0 : Nat)).1.responded_key_servers_mask
          = KeyServersMask.default from rfl, KeyServersMask.default_is_set] at hj
        exact absurd hj (by simp)
      · have : e.servers.filter
            (fun j => (new_responses b0, (0 : Nat)).1.responded_key_servers_mask.is_set j
              = true) = ∅ := by
          apply Finset.filter_eq_empty_iff.mpr
          intro x _
          rw [show (new_responses b0, (0 : Nat)).1.responded_key_servers_mask
            = KeyServersMask.default from rfl, KeyServersMask.default_is_set]
          simp
        rw [show (new_responses b0, (0 : Nat)).2 = 0 from rfl, this, Finset.card_empty]
  | step e e' i st hr htrans hwf hcard hi ih =>
      obtain ⟨r, t⟩ := st
      obtain ⟨h1, h2, h3, h4, h5⟩ := ih
      refine (docStoreCall_safe e' i r t h1 h2 h3 ?_ hwf hcard hi).2
      intro hblk
      rcases htrans with rfl | hlt
      · exact h5 hblk
      · by_cases ht0 : t = 0
        · have hmaskd := h3 ht0
          constructor
          · intro j hj
            rw [hmaskd, KeyServersMask.default_is_set] at hj
            exact absurd hj (by simp)
          · rw [ht0]
            have : e'.servers.filter
                (fun j => r.responded_key_servers_mask.is_set j = true) = ∅ := by
              apply Finset.filter_eq_empty_iff.mpr
              intro x _
              rw [hmaskd, KeyServersMask.default_is_set]
              simp
            rw [this, Finset.card_empty]
        · exfalso
          have h6 := h4 ht0
          rw [hblk] at h6
          omega

set_option maxRecDepth 4000 in
/-- Counterexample to C8 as stated: under a current set occupying all 256
slots (permitted by `key_server_set_storage::append`), `key_servers_count()`
wraps to `0` and `threshold = 0 − 1` wraps to 255. In the sequence of
`on_stored` calls in which slots `0, 1, …, 255` acknowledge the store in
order, every call up to the 255th returns `Unconfirmed` (after `k` votes
the state is `⟨block 0, mask of slots 0…k−1, k, k⟩` with unit support `k`;
the 255th call is checked explicitly below, and it steps the 254-vote
state to the 255-vote state), while the 256th recorded vote wraps the
support and count to `0` and returns `Impossible` — firing the
`unreachable!` assertion at `document_key_store.rs:129`. -/
theorem on_stored_impossible_counterexample :
    (docStoreCall docStore256Env 254 docStore256State254).1
      = ResponseSupport.Unconfirmed
    ∧ (docStoreCall docStore256Env 254 docStore256State254).2
      = docStore256State255
    ∧ (docStoreCall docStore256Env 255 docStore256State255).1
      = ResponseSupport.Impossible := by
  refine ⟨?_, ?_, ?_⟩ <;> decide

/-- Claim C8, amended: The `Impossible` branch of `on_stored` cannot fire
for any sequence of `on_stored` calls on an active document-key-store
request (all votes on the single unit value, `threshold = N − 1` with `N`
and the epoch read fresh on every call) PROVIDED the current population
never exceeds 255 (so the `u8` cast of the set size and the vote counters
do not wrap — the program permits a 256-member set, where the 256th
acknowledgement does return `Impossible`, see the counterexample) and
every membership change is accompanied by a strictly larger set-change
block (so stale votes are always detected; two migrations finalizing in
one block can change membership under an unchanged block). Under these
assumptions the next call never returns `Impossible`, so the
`unreachable!` assertion never fires. -/
theorem on_stored_impossible_unreachable (e : StoreEnv) (st : Responses × Nat)
    (h : DocStoreReach e st) (e' : StoreEnv) (i : Nat)
    (htrans : e' = e ∨ e.change_block < e'.change_block)
    (hwf : ∀ j ∈ e'.servers, j < 256)
    (hcard : e'.servers.card ≤ 255)
    (hi : i ∈ e'.servers) :
    (docStoreCall e' i st).1 ≠ ResponseSupport.Impossible := by
  obtain ⟨r, t⟩ := st
  obtain ⟨h1, h2, h3, h4, h5⟩ := docStoreReach_inv h
  refine (docStoreCall_safe e' i r t h1 h2 h3 ?_ hwf hcard hi).1
  intro hblk
  rcases htrans with rfl | hlt
  · exact h5 hblk
  · by_cases ht0 : t = 0
    · have hmaskd := h3 ht0
      constructor
      · intro j hj
        rw [hmaskd, KeyServersMask.default_is_set] at hj
        exact absurd hj (by simp)
      · rw [ht0]
        have : e'.servers.filter
            (fun j => r.responded_key_servers_mask.is_set j = true) = ∅ := by
          apply Finset.filter_eq_empty_iff.mpr
          intro x _
          rw [hmaskd, KeyServersMask.default_is_set]
          simp
        rw [this, Finset.card_empty]
    · exfalso
      have h6 := h4 ht0
      rw [hblk] at h6
      omega

/-- Witness for C8: three servers, first acknowledgement on a fresh
request — not `Impossible`. -/
theorem on_stored_impossible_unreachable_witness :
    (docStoreCall ⟨{0, 1, 2}, 0⟩ 0 (new_responses 0, 0)).1
      ≠ ResponseSupport.Impossible :=
  on_stored_impossible_unreachable ⟨{0, 1, 2}, 0⟩ (new_responses 0, 0)
    (DocStoreReach.init ⟨{0, 1, 2}, 0⟩ 0) ⟨{0, 1, 2}, 0⟩ 0
    (Or.inl rfl) (by decide) (by decide) (by decide)

end SecretStore
